import Mathlib

/-!
Verification of the ASN.1 BER/CER codec (asn1-ts).

Shallow embedding of `src/source/codecs/ber.ts` (class `BERElement`) and of
the `CERElement` code present in `src/test/ber/constructed.js`.  Byte buffers
are `List Nat` with every entry a value below 256; JavaScript bit masks on
bytes are rendered arithmetically (`x & 0b10000000` as `x / 128 % 2`,
`x & 0b00011111` as `x % 32`, `x & 0b01111111` as `x % 128`, and so on).
-/

namespace Asn1

/-- Tag classes, from `ASN1TagClass` in `source/values`. -/
inductive ASN1TagClass
  | universal
  | application
  | context
  | priv
deriving DecidableEq, Repr

/-- Construction, from `ASN1Construction` in `source/values`. -/
inductive ASN1Construction
  | primitive
  | constructed
deriving DecidableEq, Repr

/-- Error kinds, one per `errors.ASN1*Error` class thrown by the codec.
`generic` is the base `ASN1Error`; `fuel` is an artifact of the embedding
used to make unbounded loops structurally recursive and is never the result
on the inputs of any theorem below. -/
inductive Err
  | truncation
  | overflow
  | padding
  | construction
  | size
  | undefined
  | recursion
  | characters
  | generic
  | fuel
deriving DecidableEq, Repr

/-- The element data model: `(tagClass, construction, tagNumber, value)`,
as stored on `ASN1Element` (see `dist/asn1.d.ts`).  The transient
`recursionCount` is passed explicitly to the operations below. -/
structure Element where
  tagClass : ASN1TagClass
  construction : ASN1Construction
  tagNumber : Nat
  value : List Nat
deriving DecidableEq, Repr

/-- Modelled from the spec: `ASN1Element.nestingRecursionLimit` is declared in
`dist/asn1.d.ts` but its defining module is not under `src/`; the spec fixes
the nesting limit at 5 (`NESTING_LIMIT = 5`). -/
def nestingRecursionLimit : Nat := 5

/-- Decoding of the tag-class bits, mirroring the `switch` on
`bytes[cursor] & 0b11000000` in `fromBytes` (ber.ts lines 654-660):
`b / 64 % 4` is the value of bits 7-6. -/
def tagClassOfOctet (b : Nat) : ASN1TagClass :=
  match b / 64 % 4 with
  | 0 => ASN1TagClass.universal
  | 1 => ASN1TagClass.application
  | 2 => ASN1TagClass.context
  | _ => ASN1TagClass.priv

/-- Numeric value of a tag class, as used by `toBytes` (`this.tagClass << 6`). -/
def tagClassNum : ASN1TagClass → Nat
  | ASN1TagClass.universal => 0
  | ASN1TagClass.application => 1
  | ASN1TagClass.context => 2
  | ASN1TagClass.priv => 3

/-- Numeric value of the construction bit, as used by `toBytes`
(`this.construction << 5`). -/
def constructionNum : ASN1Construction → Nat
  | ASN1Construction.primitive => 0
  | ASN1Construction.constructed => 1

/-- Worker for `tagScanStop`; `fuel` is `limit - cursor` at every call, so
the `0` case coincides with the loop guard `cursor < limit` failing. -/
def tagScanAux (bytes : List Nat) (limit : Nat) : Nat → Nat → Nat
  | 0, cursor => cursor
  | f + 1, cursor =>
    if cursor < limit then
      if (bytes.getD cursor 0) / 128 % 2 = 0 then cursor + 1
      else tagScanAux bytes limit f (cursor + 1)
    else cursor

/-- The long-form tag scan loop of `fromBytes` (ber.ts lines 682-685):
starting at `cursor`, while `cursor < limit`, read `bytes[cursor]`,
advance, and stop after the first octet whose high bit is clear.
Returns the final value of `cursor`. -/
def tagScanStop (bytes : List Nat) (limit cursor : Nat) : Nat :=
  tagScanAux bytes limit (limit - cursor) cursor

/-- The base-128 accumulation loop of `fromBytes` (ber.ts lines 693-696):
`for (i = 1; i < cursor; i++) tagNumber = tagNumber << 7 | (bytes[i] & 0x7F)`. -/
def decodeTagDigits (bytes : List Nat) (cursor : Nat) : Nat :=
  (List.range' 1 (cursor - 1)).foldl (fun a i => a * 128 + bytes.getD i 0 % 128) 0

/-- The long-form tag number parser inside `fromBytes`
(ber.ts lines 665-700).  Returns the decoded tag number together with the
final cursor (the index of the length octet). -/
def parseLongTag (bytes : List Nat) : Except Err (Nat × Nat) :=
  if bytes.getD 1 0 = 128 then Except.error Err.padding
  else
    let limit : Nat := if bytes.length - 1 ≥ 4 then 4 else bytes.length - 1
    let cursor : Nat := tagScanStop bytes limit 1
    if bytes.getD (cursor - 1) 0 / 128 % 2 = 1 then
      if limit = bytes.length - 1 then Except.error Err.truncation
      else Except.error Err.overflow
    else
      let tn : Nat := decodeTagDigits bytes cursor
      if tn ≤ 31 then Except.error Err.generic
      else Except.ok (tn, cursor)

/-- Big-endian accumulation of `n` length octets starting at index `start`,
mirroring the `lengthNumberOctets` loop of `fromBytes` (ber.ts lines 717-725). -/
def beValue (bytes : List Nat) (start n : Nat) : Nat :=
  (List.range' start n).foldl (fun a i => a * 256 + bytes.getD i 0) 0

mutual

/-- `BERElement.fromBytes` (ber.ts lines 648-766), also the byte-identical
`CERElement.fromBytes`.  `rc` is the element's `recursionCount`; `fuel`
bounds the indefinite-length child scan (the JavaScript loop is bounded by
the buffer length since every child consumes at least two octets).
Returns the parsed element and the number of octets read. -/
def fromBytesAux : Nat → Nat → List Nat → Except Err (Element × Nat)
  | 0, _, _ => Except.error Err.fuel
  | fuel + 1, rc, bytes =>
  if bytes.length < 2 then Except.error Err.truncation
  else if rc + 1 > nestingRecursionLimit then Except.error Err.recursion
  else
    let b0 := bytes.getD 0 0
    let tc := tagClassOfOctet b0
    let co := if b0 / 32 % 2 = 1 then ASN1Construction.constructed
              else ASN1Construction.primitive
    let tagRes : Except Err (Nat × Nat) :=
      if b0 % 32 ≥ 31 then parseLongTag bytes else Except.ok (b0 % 32, 1)
    match tagRes with
    | Except.error e => Except.error e
    | Except.ok (tn, cursor) =>
      let lb := bytes.getD cursor 0
      if lb / 128 % 2 = 1 then
        let n := lb % 128
        if n ≠ 0 then
          -- definite long (or reserved) length
          if n = 127 then Except.error Err.undefined
          else if n > 4 then Except.error Err.overflow
          else if cursor + n ≥ bytes.length then Except.error Err.truncation
          else
            let cursor := cursor + 1
            let len := beValue bytes cursor n
            -- `(cursor + length) < cursor` in JS catches the int32-negative
            -- length produced by `length <<= 8` when the value is ≥ 2^31.
            if 2 ^ 31 ≤ len then Except.error Err.overflow
            else
              let cursor := cursor + n
              if cursor + len > bytes.length then Except.error Err.truncation
              else Except.ok (⟨tc, co, tn, (bytes.drop cursor).take len⟩, cursor + len)
        else
          -- indefinite length
          if co ≠ ASN1Construction.constructed then Except.error Err.construction
          else
            let startOfValue := cursor + 1
            match scanAux fuel rc bytes startOfValue with
            | Except.error e => Except.error e
            | Except.ok sentinel =>
              if sentinel = bytes.length ∧
                  (bytes.getD (sentinel - 1) 0 ≠ 0 ∨ bytes.getD (sentinel - 2) 0 ≠ 0) then
                Except.error Err.truncation
              else
                Except.ok (⟨tc, co, tn, (bytes.drop startOfValue).take (sentinel - 2 - startOfValue)⟩,
                  sentinel)
      else
        -- definite short length
        let len := lb % 128
        let cursor := cursor + 1
        if cursor + len > bytes.length then Except.error Err.truncation
        else Except.ok (⟨tc, co, tn, (bytes.drop cursor).take len⟩, cursor + len)

/-- The indefinite-length child scan of `fromBytes` (ber.ts lines 739-751):
parse children at `recursionCount + 1` until an end-of-content child
(universal, primitive, tag number 0, empty value) is met or the buffer is
exhausted.  Returns the final sentinel position. -/
def scanAux : Nat → Nat → List Nat → Nat → Except Err Nat
  | 0, _, _, _ => Except.error Err.fuel
  | f + 1, rc, bytes, sentinel =>
    if sentinel < bytes.length then
      match fromBytesAux f (rc + 1) (bytes.drop sentinel) with
      | Except.error e => Except.error e
      | Except.ok (child, consumed) =>
        let sentinel := sentinel + consumed
        if child.tagClass = ASN1TagClass.universal ∧
            child.construction = ASN1Construction.primitive ∧
            child.tagNumber = 0 ∧ child.value = [] then
          Except.ok sentinel
        else scanAux f rc bytes sentinel
    else Except.ok sentinel

end

/-- Entry point for `fromBytes` with a fuel budget that the JavaScript loop
structure can never exhaust (each child of an indefinite-length element
consumes at least two octets). -/
def berFromBytes (rc : Nat) (bytes : List Nat) : Except Err (Element × Nat) :=
  fromBytesAux (2 * bytes.length + 2) rc bytes

/-- Worker for `base128Digits`; the fuel only bounds the division chain
(`n / 128` reaches 0 long before `fuel`, which starts at `n`). -/
def base128Aux : Nat → Nat → List Nat
  | 0, _ => []
  | f + 1, n => if n = 0 then [] else base128Aux f (n / 128) ++ [n % 128]

/-- The base-128 digit list of a tag number (most significant first),
produced by the `while (number !== 0)` loop of `toBytes`
(ber.ts lines 787-791). -/
def base128Digits (n : Nat) : List Nat :=
  base128Aux n n

/-- Set the continuation bit on every digit except the last, matching the
`|= 0b10000000` inside the loop and the final `&= 0b01111111`
(ber.ts lines 790-792). -/
def markContinuation : List Nat → List Nat
  | [] => []
  | [d] => [d]
  | d :: ds => (d + 128) :: markContinuation ds

/-- The identifier octets emitted by `toBytes` (ber.ts lines 769-794). -/
def tagBytes (e : Element) : List Nat :=
  let t0 := tagClassNum e.tagClass * 64 + constructionNum e.construction * 32
  if e.tagNumber < 31 then [t0 + e.tagNumber]
  else (t0 + 31) :: markContinuation (base128Digits e.tagNumber)

/-- The definite length octets emitted by `toBytes` (ber.ts lines 798-814):
a single octet when `value.length < 127`, otherwise the four big-endian
octets of the length with every zero octet among the first three removed,
prefixed by `0b10000000 | count`. -/
def encodeLengthDefinite (len : Nat) : List Nat :=
  if len < 127 then [len]
  else
    let l4 : List Nat := [len / 2 ^ 24 % 256, len / 2 ^ 16 % 256, len / 2 ^ 8 % 256, len % 256]
    let pad := (l4.take 3).countP (fun b => b = 0)
    let stripped := l4.drop pad
    (128 + stripped.length) :: stripped

/-- `LengthEncodingPreference` from `source/values`. -/
inductive LengthEncodingPreference
  | definite
  | indefinite
deriving DecidableEq, Repr

/-- `BERElement.toBytes` (ber.ts lines 768-834).  Under the indefinite
preference the result buffer is allocated two octets longer and those
octets stay zero: the end-of-contents marker. -/
def berToBytes (pref : LengthEncodingPreference) (e : Element) : List Nat :=
  match pref with
  | LengthEncodingPreference.definite =>
    tagBytes e ++ encodeLengthDefinite e.value.length ++ e.value
  | LengthEncodingPreference.indefinite =>
    tagBytes e ++ [128] ++ e.value ++ [0, 0]

/-- `CERElement.toBytes` (constructed.js lines 701-768): identical to the
BER emitter except that the length form is forced by the construction:
definite for primitive, indefinite for constructed. -/
def cerToBytes (e : Element) : List Nat :=
  match e.construction with
  | ASN1Construction.primitive =>
    tagBytes e ++ encodeLengthDefinite e.value.length ++ e.value
  | ASN1Construction.constructed =>
    tagBytes e ++ [128] ++ e.value ++ [0, 0]

/-- The child-parsing loop of the `sequence` getter (ber.ts lines 291-297):
children are parsed by fresh elements (recursion count 0) from successive
offsets of the value octets. -/
def seqAux (fuel : Nat) (value : List Nat) (i : Nat) : Except Err (List Element) :=
  match fuel with
  | 0 => Except.error Err.fuel
  | f + 1 =>
    if i < value.length then
      match berFromBytes 0 (value.drop i) with
      | Except.error e => Except.error e
      | Except.ok (next, consumed) =>
        match seqAux f value (i + consumed) with
        | Except.error e => Except.error e
        | Except.ok rest => Except.ok (next :: rest)
    else Except.ok []

/-- The `sequence` getter (ber.ts lines 285-298). -/
def sequenceGet (e : Element) : Except Err (List Element) :=
  if e.construction ≠ ASN1Construction.constructed then Except.error Err.construction
  else seqAux (e.value.length + 1) e.value 0

/-- `BERElement.deconstruct` (ber.ts lines 836-865).  `rc` is the element's
`recursionCount`; each substring is recursed into with `rc + 1`.  The fuel
argument of the worker only realises the bound already enforced by the
`recursionCount` check and is never exhausted. -/
def deconAux (fuel : Nat) (e : Element) (rc : Nat) : Except Err (List Nat) :=
  match fuel with
  | 0 => Except.error Err.fuel
  | f + 1 =>
    if e.construction = ASN1Construction.primitive then Except.ok e.value
    else if rc + 1 > nestingRecursionLimit then Except.error Err.recursion
    else
      match sequenceGet e with
      | Except.error er => Except.error er
      | Except.ok cs =>
        cs.foldlM (fun acc c =>
          if c.tagClass ≠ e.tagClass then Except.error Err.construction
          else if c.tagNumber ≠ e.tagNumber then Except.error Err.construction
          else
            match deconAux f c (rc + 1) with
            | Except.error er => Except.error er
            | Except.ok b => Except.ok (acc ++ b)) []

/-- `deconstruct`.  The fuel `nestingRecursionLimit + 2 - rc` dominates the
recursion depth still allowed by the `recursionCount` check, and the choice
makes the recursive calls of `deconAux` coincide with `deconstruct` itself:
`deconAux (limit + 2 - rc - 1) c (rc + 1) = deconstruct c (rc + 1)`. -/
def deconstruct (e : Element) (rc : Nat) : Except Err (List Nat) :=
  deconAux (nestingRecursionLimit + 2 - rc) e rc

/-- The `octetString` getter (ber.ts lines 111-113). -/
def octetStringGet (e : Element) (rc : Nat) : Except Err (List Nat) :=
  deconstruct e rc

/-- The eight booleans extracted from one content octet by the primitive
`bitString` getter (ber.ts lines 64-75). -/
def bitsOfOctet (b : Nat) : List Bool :=
  [decide (b / 128 % 2 = 1), decide (b / 64 % 2 = 1), decide (b / 32 % 2 = 1),
   decide (b / 16 % 2 = 1), decide (b / 8 % 2 = 1), decide (b / 4 % 2 = 1),
   decide (b / 2 % 2 = 1), decide (b % 2 = 1)]

/-- The bit list produced by the primitive `bitString` getter on a valid
value: all payload bits, truncated by the unused-bit count in octet 0. -/
def primBitsVal (value : List Nat) : List Bool :=
  let bits := ((value.drop 1).map bitsOfOctet).flatten
  bits.take (bits.length - value.getD 0 0)

/-- The primitive branch of the `bitString` getter (ber.ts lines 52-77). -/
def decodeBitStringPrim (value : List Nat) : Except Err (List Bool) :=
  if value.length = 0 then Except.error Err.generic
  else if value.length = 1 ∧ value.getD 0 0 ≠ 0 then Except.error Err.generic
  else if value.getD 0 0 > 7 then Except.error Err.generic
  else Except.ok (primBitsVal value)

/-- The `bitString` getter (ber.ts lines 51-105).  In the constructed
branch all substrings except the last are first checked to be byte-aligned
(primitive, non-empty value, zero first octet), then every substring must
carry the outer tag and is recursed into with `rc + 1`. -/
def bitStringAux (fuel : Nat) (e : Element) (rc : Nat) : Except Err (List Bool) :=
  match fuel with
  | 0 => Except.error Err.fuel
  | f + 1 =>
    if e.construction = ASN1Construction.primitive then decodeBitStringPrim e.value
    else if rc + 1 > nestingRecursionLimit then Except.error Err.recursion
    else
      match sequenceGet e with
      | Except.error er => Except.error er
      | Except.ok cs =>
        if cs.dropLast.any (fun c =>
            decide (c.construction = ASN1Construction.primitive) &&
            decide (c.value.length > 0) && decide (c.value.getD 0 0 ≠ 0)) then
          Except.error Err.generic
        else
          cs.foldlM (fun acc c =>
            if c.tagClass ≠ e.tagClass then Except.error Err.construction
            else if c.tagNumber ≠ e.tagNumber then Except.error Err.construction
            else
              match bitStringAux f c (rc + 1) with
              | Except.error er => Except.error er
              | Except.ok b => Except.ok (acc ++ b)) []

/-- The `bitString` getter; the fuel choice mirrors `deconstruct`. -/
def bitStringGet (e : Element) (rc : Nat) : Except Err (List Bool) :=
  bitStringAux (nestingRecursionLimit + 2 - rc) e rc

/-- The `boolean` setter (ber.ts lines 25-28): replaces the value with one
octet, `0xFF` for true and `0x00` for false; no other field is touched. -/
def booleanSet (e : Element) (b : Bool) : Element :=
  { e with value := [if b then 255 else 0] }

/-- The `boolean` getter (ber.ts lines 30-36). -/
def booleanGet (e : Element) : Except Err Bool :=
  if e.construction ≠ ASN1Construction.primitive then Except.error Err.construction
  else if e.value.length ≠ 1 then Except.error Err.size
  else Except.ok (e.value.getD 0 0 != 0)

/-- Modelled from the spec: `splitOctetsCanonically` (imported by the
CERElement code but not under `src/`) splits a value into consecutive
1000-octet fragments, the last fragment being the remainder. -/
def splitOctetsAux : Nat → List Nat → List (List Nat)
  | 0, _ => []
  | f + 1, v => if v = [] then [] else v.take 1000 :: splitOctetsAux f (v.drop 1000)

/-- Modelled from the spec (continued): the chunking generator itself; the
fuel starts at the list length and always dominates it, so the `0` case only
fires on the empty list. -/
def splitOctetsCanonically (v : List Nat) : List (List Nat) :=
  splitOctetsAux v.length v

/-- Modelled from the spec: `encodeSequence` (the x690 encoder imported by
the CERElement code but not under `src/`) concatenates the encodings of the
child elements, as the spec's data-model invariant 3 states.  For the CER
fragments the relevant emitter is `cerToBytes`. -/
def encodeSequence (children : List Element) : List Nat :=
  (children.map cerToBytes).flatten

/-- The `unfragmentedValue` setter of `CERElement`
(constructed.js lines 140-156): values of at most 1000 octets are stored
primitively; longer values switch the element to constructed form, the
value becoming the concatenated encodings of primitive fragments carrying
the element's own tag. -/
def cerUnfragmentedValueSet (e : Element) (v : List Nat) : Element :=
  if v.length ≤ 1000 then
    { e with construction := ASN1Construction.primitive, value := v }
  else
    let frags := (splitOctetsCanonically v).map
      (fun f => Element.mk e.tagClass ASN1Construction.primitive e.tagNumber f)
    { e with construction := ASN1Construction.constructed, value := encodeSequence frags }

/-- The `octetString` setter of `CERElement` (constructed.js lines 206-208):
clones the value and stores it through `unfragmentedValue`. -/
def cerOctetStringSet (e : Element) (v : List Nat) : Element :=
  cerUnfragmentedValueSet e v

/-! ## Concrete inputs used in the theorems -/

/-- The well-formed element with tag number 31 (universal, primitive, empty
value).  X.690 requires tag number 31 to be encoded in long form. -/
def tag31Element : Element :=
  ⟨ASN1TagClass.universal, ASN1Construction.primitive, 31, []⟩

/-- An identifier octet whose five low bits announce a long-form tag number. -/
def idOctet (tc : ASN1TagClass) (co : ASN1Construction) : Nat :=
  tagClassNum tc * 64 + constructionNum co * 32 + 31

/-- The continuation octets `toBytes` emits for a long-form tag number:
minimal base-128 digits, every octet but the last carrying the high bit. -/
def longTagEncoding (v : Nat) : List Nat :=
  markContinuation (base128Digits v)

/-- An indefinite-length constructed element whose contents are a single
non-sentinel child (`04 02 00 00`) ending exactly at the buffer end: no
end-of-content element is present, but the last two octets happen to be
zero. -/
def c4Input : List Nat := [48, 128, 4, 2, 0, 0]

/-- A chain of `n` indefinite-length constructed elements (tag `30`) around
a primitive definite-length element `04 00`: `n + 1` nesting levels. -/
def indefNest : Nat → List Nat
  | 0 => [4, 0]
  | n + 1 => [48, 128] ++ indefNest n ++ [0, 0]

/-- A chain of `n` constructed OCTET STRING wrappers (definite lengths)
around a primitive OCTET STRING with value `[7]`. -/
def deconNest : Nat → Element
  | 0 => ⟨ASN1TagClass.universal, ASN1Construction.primitive, 4, [7]⟩
  | n + 1 => ⟨ASN1TagClass.universal, ASN1Construction.constructed, 4,
      berToBytes LengthEncodingPreference.definite (deconNest n)⟩

/-- A chain of `n` constructed BIT STRING wrappers around a primitive
BIT STRING with value `00 FF` (eight one-bits, byte-aligned). -/
def bsNest : Nat → Element
  | 0 => ⟨ASN1TagClass.universal, ASN1Construction.primitive, 3, [0, 255]⟩
  | n + 1 => ⟨ASN1TagClass.universal, ASN1Construction.constructed, 3,
      berToBytes LengthEncodingPreference.definite (bsNest n)⟩

/-- The spec's constructed OCTET STRING scenario:
`24 11 04 04 01 02 03 04 24 05 04 03 05 06 07 04 02 08 09`. -/
def ex24Bytes : List Nat :=
  [36, 17, 4, 4, 1, 2, 3, 4, 36, 5, 4, 3, 5, 6, 7, 4, 2, 8, 9]

/-- The outer element parsed from `ex24Bytes`. -/
def ex24Element : Element :=
  ⟨ASN1TagClass.universal, ASN1Construction.constructed, 4,
    [4, 4, 1, 2, 3, 4, 36, 5, 4, 3, 5, 6, 7, 4, 2, 8, 9]⟩

/-- A constructed BIT STRING whose first (non-last) sub-element is itself
constructed (`23 04 03 02 05 F0`, carrying five unused bits in its own last
fragment) followed by a byte-aligned primitive sub-element `03 02 00 0F`. -/
def bsConstructedSubBytes : List Nat :=
  [35, 10, 35, 4, 3, 2, 5, 240, 3, 2, 0, 15]

/-- The outer element parsed from `bsConstructedSubBytes`. -/
def bsConstructedSubElement : Element :=
  ⟨ASN1TagClass.universal, ASN1Construction.constructed, 3,
    [35, 4, 3, 2, 5, 240, 3, 2, 0, 15]⟩

/-! ## C1 -/

/-- C1: the serialization round trip fails on the code.  For the well-formed
element with tag number 31 — which X.690 says must use the long form, as
`toBytes` does — `toBytes` emits `1F 1F 00`, and `fromBytes` rejects that
very buffer with the generic `ASN1Error` (message: the tag number
"could have been encoded in short form", which is false for 31). -/
theorem c1_roundtrip_fails_at_tag31 :
    berToBytes LengthEncodingPreference.definite tag31Element = [31, 31, 0] ∧
    berFromBytes 0 (berToBytes LengthEncodingPreference.definite tag31Element) =
      Except.error Err.generic := by
  exact ⟨rfl, rfl⟩

/-! ## C2 -/

/-- C2 counterexample: `[31]` is the minimal base-128 encoding of the tag
number 31, which is at least 31 and representable in 32 bits, so the claim
says the element `1F 1F 00` is accepted with tag number 31; the code rejects
it (`fromBytes` throws `ASN1Error` whenever the decoded long-form tag number
is `≤ 31`, not `≤ 30`). -/
theorem c2_counterexample_tag31 :
    longTagEncoding 31 = [31] ∧
    berFromBytes 0 [31, 31, 0] = Except.error Err.generic := by
  exact ⟨rfl, rfl⟩

/-! ## C2 (amended theorem): helper lemmas about the base-128 digits and the
long-form tag parser, then the amended claim. -/

lemma base128Aux_zero (f : Nat) : base128Aux f 0 = [] := by
  cases f <;> rfl

lemma base128Aux_congr : ∀ f g n, n ≤ f → n ≤ g → base128Aux f n = base128Aux g n := by
  intro f
  induction f with
  | zero =>
    intro g n hf hg
    have : n = 0 := by omega
    subst this
    rw [base128Aux_zero, base128Aux_zero]
  | succ f ih =>
    intro g n hf hg
    match n with
    | 0 => rw [base128Aux_zero, base128Aux_zero]
    | m + 1 =>
      match g, hg with
      | g + 1, hg =>
        show base128Aux f ((m + 1) / 128) ++ [(m + 1) % 128] =
          base128Aux g ((m + 1) / 128) ++ [(m + 1) % 128]
        rw [ih g ((m + 1) / 128) (by omega) (by omega)]

lemma base128Aux_fuel (f n : Nat) (h : n ≤ f) : base128Aux f n = base128Digits n :=
  base128Aux_congr f n n h (Nat.le_refl n)

lemma base128Digits_unfold (v : Nat) :
    base128Digits v = if v = 0 then [] else base128Digits (v / 128) ++ [v % 128] := by
  match v with
  | 0 => rfl
  | m + 1 =>
    show base128Aux m ((m + 1) / 128) ++ [(m + 1) % 128] = _
    rw [if_neg (by omega)]
    rw [base128Aux_fuel _ _ (by omega)]

lemma base128_one (v : Nat) (h0 : 0 < v) (h : v < 128) : base128Digits v = [v] := by
  rw [base128Digits_unfold, if_neg (by omega), Nat.div_eq_of_lt h, Nat.mod_eq_of_lt h]
  rfl

lemma base128_two (v : Nat) (h1 : 128 ≤ v) (h2 : v < 16384) :
    base128Digits v = [v / 128, v % 128] := by
  rw [base128Digits_unfold, if_neg (by omega), base128_one _ (by omega) (by omega)]
  rfl

lemma base128_three (v : Nat) (h1 : 16384 ≤ v) (h2 : v < 2097152) :
    base128Digits v = [v / 16384, v / 128 % 128, v % 128] := by
  rw [base128Digits_unfold, if_neg (by omega), base128_two _ (by omega) (by omega),
    Nat.div_div_eq_div_mul]
  norm_num

lemma base128_four (v : Nat) (h1 : 2097152 ≤ v) (h2 : v < 268435456) :
    base128Digits v = [v / 2097152, v / 16384 % 128, v / 128 % 128, v % 128] := by
  rw [base128Digits_unfold, if_neg (by omega), base128_three _ (by omega) (by omega),
    Nat.div_div_eq_div_mul, Nat.div_div_eq_div_mul]
  norm_num

lemma idOctet_mod32 (tc : ASN1TagClass) (co : ASN1Construction) :
    idOctet tc co % 32 = 31 := by
  cases tc <;> cases co <;> rfl

lemma idOctet_class (tc : ASN1TagClass) (co : ASN1Construction) :
    tagClassOfOctet (idOctet tc co) = tc := by
  cases tc <;> cases co <;> rfl

lemma idOctet_constr (tc : ASN1TagClass) (co : ASN1Construction) :
    (if idOctet tc co / 32 % 2 = 1 then ASN1Construction.constructed
     else ASN1Construction.primitive) = co := by
  cases tc <;> cases co <;> rfl

lemma parseLongTag_one (b0 v z : Nat) (h2 : v < 128) :
    parseLongTag [b0, v, z] =
      if v ≤ 31 then Except.error Err.generic else Except.ok (v, 2) := by
  have hv : ¬ ([31, v, z].getD 1 0 = 128) := by simp; omega
  have hlow : v / 128 % 2 = 0 := by omega
  simp only [parseLongTag, tagScanStop, tagScanAux, decodeTagDigits, List.range',
    List.getD_cons_succ, List.getD_cons_zero, List.length_cons, List.length_nil, hlow]
  norm_num [Nat.mod_eq_of_lt h2]
  rw [if_neg (by omega : ¬ v = 128), if_neg (by omega : ¬ v / 128 % 2 = 1)]

lemma parseLongTag_two (b0 a b z : Nat) (ha1 : 128 < a) (ha2 : a < 256) (hb : b < 128) :
    parseLongTag [b0, a, b, z] =
      if a % 128 * 128 + b ≤ 31 then Except.error Err.generic
      else Except.ok (a % 128 * 128 + b, 3) := by
  have hahigh : a / 128 % 2 = 1 := by omega
  have hblow : b / 128 % 2 = 0 := by omega
  simp only [parseLongTag, tagScanStop, tagScanAux, decodeTagDigits, List.range',
    List.getD_cons_succ, List.getD_cons_zero, List.length_cons, List.length_nil,
    hahigh, hblow]
  norm_num [Nat.mod_eq_of_lt hb]
  rw [if_neg (by omega : ¬ a = 128), if_neg (by omega : ¬ b / 128 % 2 = 1)]

lemma parseLongTag_three (b0 a b c z : Nat) (ha1 : 128 < a) (ha2 : a < 256)
    (hb1 : 128 ≤ b) (hb2 : b < 256) (hc : c < 128) :
    parseLongTag [b0, a, b, c, z] =
      if (a % 128 * 128 + b % 128) * 128 + c ≤ 31 then Except.error Err.generic
      else Except.ok ((a % 128 * 128 + b % 128) * 128 + c, 4) := by
  have hahigh : a / 128 % 2 = 1 := by omega
  have hbhigh : b / 128 % 2 = 1 := by omega
  have hclow : c / 128 % 2 = 0 := by omega
  simp only [parseLongTag, tagScanStop, tagScanAux, decodeTagDigits, List.range',
    List.getD_cons_succ, List.getD_cons_zero, List.length_cons, List.length_nil,
    hahigh, hbhigh, hclow]
  norm_num [Nat.mod_eq_of_lt hc]
  rw [if_neg (by omega : ¬ a = 128), if_neg (by omega : ¬ c / 128 % 2 = 1)]

lemma parseLongTag_overflow (b0 a b c : Nat) (rest : List Nat)
    (ha1 : 128 < a) (ha2 : a < 256) (hb1 : 128 ≤ b) (hb2 : b < 256)
    (hc1 : 128 ≤ c) (hc2 : c < 256) (hrest : 2 ≤ rest.length) :
    parseLongTag (b0 :: a :: b :: c :: rest) = Except.error Err.overflow := by
  have hahigh : a / 128 % 2 = 1 := by omega
  have hbhigh : b / 128 % 2 = 1 := by omega
  have hchigh : c / 128 % 2 = 1 := by omega
  have hlen : (b0 :: a :: b :: c :: rest).length - 1 ≥ 4 := by simp; omega
  simp only [parseLongTag, tagScanStop, tagScanAux, List.getD_cons_succ,
    List.getD_cons_zero, hahigh, hbhigh, hchigh, if_pos hlen]
  norm_num [List.getD_cons_succ, List.getD_cons_zero]
  rw [if_neg (by omega : ¬ a = 128), if_pos hchigh,
    if_neg (by omega : ¬ (4 : Nat) = rest.length + 1 + 1 + 1)]

theorem c2_part_a (tc : ASN1TagClass) (co : ASN1Construction) (v : Nat)
    (hv1 : 1 ≤ v) (hv2 : v ≤ 31) :
    berFromBytes 0 [idOctet tc co, v, 0] = Except.error Err.generic := by
  show fromBytesAux (7 + 1) 0 [idOctet tc co, v, 0] = _
  rw [fromBytesAux]
  norm_num [List.getD_cons_zero, List.getD_cons_succ, idOctet_mod32, nestingRecursionLimit]
  rw [parseLongTag_one _ _ _ (by omega), if_pos (by omega : v ≤ 31)]

theorem c2_part_b1 (tc : ASN1TagClass) (co : ASN1Construction) (v : Nat)
    (hv1 : 32 ≤ v) (hk1 : v < 128) :
    berFromBytes 0 [idOctet tc co, v, 0] =
      Except.ok (⟨tc, co, v, []⟩, 3) := by
  show fromBytesAux (7 + 1) 0 [idOctet tc co, v, 0] = _
  rw [fromBytesAux]
  norm_num [List.getD_cons_zero, List.getD_cons_succ, idOctet_mod32, nestingRecursionLimit]
  rw [parseLongTag_one _ _ _ (by omega), if_neg (by omega : ¬ v ≤ 31)]
  norm_num [List.getElem?_cons_succ, List.getElem?_cons_zero, idOctet_class, idOctet_constr]

theorem c2_part_b2 (tc : ASN1TagClass) (co : ASN1Construction) (v : Nat)
    (hv1 : 128 ≤ v) (hk2 : v < 16384) :
    berFromBytes 0 [idOctet tc co, v / 128 + 128, v % 128, 0] =
      Except.ok (⟨tc, co, v, []⟩, 4) := by
  show fromBytesAux (9 + 1) 0 [idOctet tc co, v / 128 + 128, v % 128, 0] = _
  rw [fromBytesAux]
  norm_num [List.getD_cons_zero, List.getD_cons_succ, idOctet_mod32, nestingRecursionLimit]
  rw [parseLongTag_two _ _ _ _ (by omega) (by omega) (by omega)]
  have htn : (v / 128 + 128) % 128 * 128 + v % 128 = v := by omega
  rw [htn, if_neg (by omega : ¬ v ≤ 31)]
  norm_num [List.getElem?_cons_succ, List.getElem?_cons_zero, idOctet_class, idOctet_constr]

theorem c2_part_b3 (tc : ASN1TagClass) (co : ASN1Construction) (v : Nat)
    (hv1 : 16384 ≤ v) (hk3 : v < 2097152) :
    berFromBytes 0 [idOctet tc co, v / 16384 + 128, v / 128 % 128 + 128, v % 128, 0] =
      Except.ok (⟨tc, co, v, []⟩, 5) := by
  show fromBytesAux (11 + 1) 0
    [idOctet tc co, v / 16384 + 128, v / 128 % 128 + 128, v % 128, 0] = _
  rw [fromBytesAux]
  norm_num [List.getD_cons_zero, List.getD_cons_succ, idOctet_mod32, nestingRecursionLimit]
  rw [parseLongTag_three _ _ _ _ _ (by omega) (by omega) (by omega) (by omega) (by omega)]
  have htn : ((v / 16384 + 128) % 128 * 128 + (v / 128 % 128 + 128) % 128) * 128 + v % 128
      = v := by omega
  rw [htn, if_neg (by omega : ¬ v ≤ 31)]
  norm_num [List.getElem?_cons_succ, List.getElem?_cons_zero, idOctet_class, idOctet_constr]

theorem c2_part_c (tc : ASN1TagClass) (co : ASN1Construction) (v : Nat)
    (hv1 : 2097152 ≤ v) (hv2 : v < 268435456) :
    berFromBytes 0 [idOctet tc co, v / 2097152 + 128, v / 16384 % 128 + 128,
      v / 128 % 128 + 128, v % 128, 0] = Except.error Err.overflow := by
  show fromBytesAux (13 + 1) 0 [idOctet tc co, v / 2097152 + 128, v / 16384 % 128 + 128,
    v / 128 % 128 + 128, v % 128, 0] = _
  rw [fromBytesAux]
  norm_num [List.getD_cons_zero, List.getD_cons_succ, idOctet_mod32, nestingRecursionLimit]
  rw [parseLongTag_overflow _ _ _ _ [v % 128, 0] (by omega) (by omega) (by omega) (by omega)
    (by omega) (by omega) (by simp)]

/-- C2 (amended): for a buffer whose identifier octet announces a long-form
tag number, `fromBytes` rejects the element with `ASN1Error` when the
continuation octets decode to a tag number of at most 31 (not 30), accepts
it — setting `tagNumber` to the decoded value and consuming the identifier,
the continuation octets and the length octet — whenever the continuation
octets are the minimal base-128 encoding of a tag number in `[32, 2^21)`
(at most three continuation octets), and rejects minimal encodings of tag
numbers of at least `2^21` (shown up to `2^28`) with `OverflowError` even
though they are representable as 32-bit unsigned integers. -/
theorem c2_long_form_tag (tc : ASN1TagClass) (co : ASN1Construction) (v : Nat) :
    (1 ≤ v → v ≤ 31 →
      berFromBytes 0 [idOctet tc co, v, 0] = Except.error Err.generic) ∧
    (32 ≤ v → v < 2 ^ 21 →
      berFromBytes 0 (idOctet tc co :: longTagEncoding v ++ [0]) =
        Except.ok (⟨tc, co, v, []⟩, 2 + (longTagEncoding v).length)) ∧
    (2 ^ 21 ≤ v → v < 2 ^ 28 →
      berFromBytes 0 (idOctet tc co :: longTagEncoding v ++ [0]) =
        Except.error Err.overflow) := by
  refine ⟨c2_part_a tc co v, ?_, ?_⟩
  · intro hv1 hv2
    norm_num at hv2
    by_cases hk1 : v < 128
    · have henc : longTagEncoding v = [v] := by
        rw [longTagEncoding, base128_one v (by omega) hk1]
        rfl
      rw [henc]
      simpa using c2_part_b1 tc co v (by omega) hk1
    · by_cases hk2 : v < 16384
      · have henc : longTagEncoding v = [v / 128 + 128, v % 128] := by
          rw [longTagEncoding, base128_two v (by omega) hk2]
          rfl
        rw [henc]
        simpa using c2_part_b2 tc co v (by omega) hk2
      · have henc : longTagEncoding v = [v / 16384 + 128, v / 128 % 128 + 128, v % 128] := by
          rw [longTagEncoding, base128_three v (by omega) (by omega)]
          rfl
        rw [henc]
        simpa using c2_part_b3 tc co v (by omega) (by omega)
  · intro hv1 hv2
    norm_num at hv1 hv2
    have henc : longTagEncoding v =
        [v / 2097152 + 128, v / 16384 % 128 + 128, v / 128 % 128 + 128, v % 128] := by
      rw [longTagEncoding, base128_four v (by omega) (by omega)]
      rfl
    rw [henc]
    simpa using c2_part_c tc co v (by omega) (by omega)

/-- C2 witness. -/
theorem c2_long_form_tag_witness :
    berFromBytes 0 [31, 1, 0] = Except.error Err.generic ∧
    berFromBytes 0 (31 :: longTagEncoding 999 ++ [0]) =
      Except.ok (⟨ASN1TagClass.universal, ASN1Construction.primitive, 999, []⟩,
        2 + (longTagEncoding 999).length) ∧
    berFromBytes 0 (31 :: longTagEncoding 2097152 ++ [0]) = Except.error Err.overflow := by
  refine ⟨?_, ?_, ?_⟩
  · exact (c2_long_form_tag ASN1TagClass.universal ASN1Construction.primitive 1).1
      (by norm_num) (by norm_num)
  · exact (c2_long_form_tag ASN1TagClass.universal ASN1Construction.primitive 999).2.1
      (by norm_num) (by norm_num)
  · exact (c2_long_form_tag ASN1TagClass.universal ASN1Construction.primitive 2097152).2.2
      (by norm_num) (by norm_num)

/-! ## C3 -/

/-- C3: the length emitter contradicts the claim.  At value length 127 the
code emits the long form `81 7F` (two octets) although the claim requires
the short form; at value length 65541 (`0x010005`) the zero-stripping loop
counts the interior zero octet as padding and emits `82 00 05` — a header
that declares length 5 and keeps a leading zero octet — instead of the
minimum-width `83 01 00 05`. -/
theorem c3_length_encoding_bug :
    encodeLengthDefinite 127 = [129, 127] ∧
    encodeLengthDefinite 65541 = [130, 0, 5] ∧
    encodeLengthDefinite 126 = [126] := by
  exact ⟨rfl, rfl, rfl⟩

/-! ## C4 -/

/-- C4: an indefinite-length element whose children end exactly at the
buffer end without any end-of-content sentinel is *accepted* whenever the
last two octets of the buffer are zero (here they are the tail of the
child's own value), returning the garbage value `04 02` — the claim says
this input must fail with `TruncationError`. -/
theorem c4_missing_sentinel_accepted :
    berFromBytes 0 c4Input =
      Except.ok (⟨ASN1TagClass.universal, ASN1Construction.constructed, 16, [4, 2]⟩, 6) := by
  rfl

/-! ## C6 -/

/-- C6: the BER BOOLEAN codec.  The setter stores exactly one octet, `FF`
for true and `00` for false (encoding true on a universal primitive tag-1
element yields `01 01 FF`); the getter throws `ConstructionError` on a
constructed element, `SizeError` when the value is not exactly one octet,
and otherwise returns false exactly for the octet `00`. -/
theorem c6_boolean_codec (e : Element) (b : Bool) (x : Nat) :
    (booleanSet e b).value = [if b then 255 else 0] ∧
    berToBytes LengthEncodingPreference.definite
      (booleanSet ⟨ASN1TagClass.universal, ASN1Construction.primitive, 1, []⟩ true) =
      [1, 1, 255] ∧
    (e.construction = ASN1Construction.constructed →
      booleanGet e = Except.error Err.construction) ∧
    (e.construction = ASN1Construction.primitive → e.value.length ≠ 1 →
      booleanGet e = Except.error Err.size) ∧
    (e.construction = ASN1Construction.primitive → e.value = [x] →
      booleanGet e = Except.ok (x != 0)) := by
  refine ⟨rfl, rfl, ?_, ?_, ?_⟩
  · intro h
    simp [booleanGet, h]
  · intro h hl
    simp [booleanGet, h, hl]
  · intro h hv
    simp [booleanGet, h, hv]

/-- C6 witness: the constructed element with a one-octet value hits the
`ConstructionError` branch, the primitive two-octet element hits
`SizeError`, and the primitive value `[255]` decodes to true. -/
theorem c6_boolean_codec_witness :
    booleanGet ⟨ASN1TagClass.universal, ASN1Construction.constructed, 1, [255]⟩ =
      Except.error Err.construction ∧
    booleanGet ⟨ASN1TagClass.universal, ASN1Construction.primitive, 1, [0, 0]⟩ =
      Except.error Err.size ∧
    booleanGet ⟨ASN1TagClass.universal, ASN1Construction.primitive, 1, [255]⟩ =
      Except.ok true := by
  refine ⟨(c6_boolean_codec ⟨ASN1TagClass.universal, ASN1Construction.constructed, 1, [255]⟩
      true 255).2.2.1 rfl, ?_, ?_⟩
  · exact (c6_boolean_codec ⟨ASN1TagClass.universal, ASN1Construction.primitive, 1, [0, 0]⟩
      true 255).2.2.2.1 rfl (by decide)
  · exact (c6_boolean_codec ⟨ASN1TagClass.universal, ASN1Construction.primitive, 1, [255]⟩
      true 255).2.2.2.2 rfl rfl

/-! ## C8 -/

/-- C8: every decode operation enforces the nesting limit of 5.
Parsing five nesting levels of indefinite-length elements succeeds while
six levels fail with `RecursionError`; likewise `deconstruct` (hence the
`octetString` getter) and the constructed `bitString` getter succeed on
five levels of constructed wrapping and fail with `RecursionError` on six. -/
theorem c8_nesting_limit :
    berFromBytes 0 (indefNest 4) =
      Except.ok (⟨ASN1TagClass.universal, ASN1Construction.constructed, 16,
        [48, 128, 48, 128, 48, 128, 4, 0, 0, 0, 0, 0, 0, 0]⟩, 18) ∧
    berFromBytes 0 (indefNest 5) = Except.error Err.recursion ∧
    deconstruct (deconNest 5) 0 = Except.ok [7] ∧
    deconstruct (deconNest 6) 0 = Except.error Err.recursion ∧
    bitStringGet (bsNest 5) 0 =
      Except.ok [true, true, true, true, true, true, true, true] ∧
    bitStringGet (bsNest 6) 0 = Except.error Err.recursion := by
  exact ⟨rfl, rfl, rfl, rfl, rfl, rfl⟩

/-! ## C5 counterexample -/

/-- C5 counterexample: in `bsConstructedSubElement` the first (non-last)
sub-element carries a non-zero first content octet (`23`) and a non-zero
unused-bit count in its own contents, so the claim says the `bitString`
getter throws; the code only applies the byte-alignment check to
*primitive* sub-elements and returns the concatenated 11 bits. -/
theorem c5_counterexample_constructed_sub :
    berFromBytes 0 bsConstructedSubBytes = Except.ok (bsConstructedSubElement, 12) ∧
    bitStringGet bsConstructedSubElement 0 =
      Except.ok [true, true, true, false, false, false, false, true, true, true, true] := by
  exact ⟨rfl, rfl⟩

/-! ## C10 -/

/-- C10: the `boolean` setter assigns only the value field — tag class, tag
number and construction are unchanged — so on a constructed element the
value just stored cannot be read back: the getter throws
`ConstructionError`. -/
theorem c10_boolean_setter_frame (e : Element) (b : Bool) :
    (booleanSet e b).tagClass = e.tagClass ∧
    (booleanSet e b).construction = e.construction ∧
    (booleanSet e b).tagNumber = e.tagNumber ∧
    (e.construction = ASN1Construction.constructed →
      booleanGet (booleanSet e b) = Except.error Err.construction) := by
  refine ⟨rfl, rfl, rfl, fun h => ?_⟩
  simp [booleanGet, booleanSet, h]

/-- C10 witness: storing `true` into a constructed element and reading it
back throws `ConstructionError`. -/
theorem c10_boolean_setter_frame_witness :
    booleanGet (booleanSet
      ⟨ASN1TagClass.universal, ASN1Construction.constructed, 1, []⟩ true) =
      Except.error Err.construction := by
  exact (c10_boolean_setter_frame
    ⟨ASN1TagClass.universal, ASN1Construction.constructed, 1, []⟩ true).2.2.2 rfl

/-! ## C9, C5, C7: characterizations of deconstruct, the constructed
bitString getter, and the CER fragmenting setter. -/

lemma deconstruct_eq (e : Element) (rc : Nat) (hrc : rc ≤ 6) :
    deconstruct e rc =
      if e.construction = ASN1Construction.primitive then Except.ok e.value
      else if rc + 1 > nestingRecursionLimit then Except.error Err.recursion
      else match sequenceGet e with
        | Except.error er => Except.error er
        | Except.ok cs =>
          cs.foldlM (fun acc c =>
            if c.tagClass ≠ e.tagClass then Except.error Err.construction
            else if c.tagNumber ≠ e.tagNumber then Except.error Err.construction
            else
              match deconstruct c (rc + 1) with
              | Except.error er => Except.error er
              | Except.ok b => Except.ok (acc ++ b)) [] := by
  show deconAux (nestingRecursionLimit + 2 - rc) e rc = _
  rw [show nestingRecursionLimit + 2 - rc = (nestingRecursionLimit + 1 - rc) + 1 from by
    simp only [nestingRecursionLimit]; omega]
  rw [deconAux]
  simp only [deconstruct, show nestingRecursionLimit + 2 - (rc + 1)
    = nestingRecursionLimit + 1 - rc from by simp only [nestingRecursionLimit]; omega]

lemma deconFold_ok (e : Element) (rc : Nat) :
    ∀ (cs : List Element) (bs : List (List Nat)),
    List.Forall₂ (fun c b => c.tagClass = e.tagClass ∧ c.tagNumber = e.tagNumber ∧
      deconstruct c (rc + 1) = Except.ok b) cs bs →
    ∀ (acc : List Nat),
    (cs.foldlM (fun acc c =>
      if c.tagClass ≠ e.tagClass then Except.error Err.construction
      else if c.tagNumber ≠ e.tagNumber then Except.error Err.construction
      else
        match deconstruct c (rc + 1) with
        | Except.error er => Except.error er
        | Except.ok b => Except.ok (acc ++ b)) acc) = Except.ok (acc ++ bs.flatten) := by
  intro cs bs h
  induction h with
  | nil =>
    intro acc
    simp [List.foldlM]
    rfl
  | cons hd tl ih =>
    rename_i c b cs bs
    intro acc
    obtain ⟨h1, h2, h3⟩ := hd
    have hstep : (if c.tagClass ≠ e.tagClass then Except.error Err.construction
        else if c.tagNumber ≠ e.tagNumber then Except.error Err.construction
        else
          match deconstruct c (rc + 1) with
          | Except.error er => Except.error er
          | Except.ok b => Except.ok (acc ++ b)) = Except.ok (acc ++ b) := by
      rw [if_neg (not_not_intro h1), if_neg (not_not_intro h2), h3]
    rw [List.foldlM_cons, hstep]
    show (cs.foldlM _ (acc ++ b)) = _
    rw [ih (acc ++ b)]
    simp

lemma deconFold_err (e : Element) (rc : Nat) :
    ∀ (pre : List Element) (c : Element) (post : List Element) (acc : List Nat),
    (∀ p ∈ pre, p.tagClass = e.tagClass ∧ p.tagNumber = e.tagNumber ∧
      ∃ b, deconstruct p (rc + 1) = Except.ok b) →
    (c.tagClass ≠ e.tagClass ∨ c.tagNumber ≠ e.tagNumber) →
    ((pre ++ c :: post).foldlM (fun acc c =>
      if c.tagClass ≠ e.tagClass then Except.error Err.construction
      else if c.tagNumber ≠ e.tagNumber then Except.error Err.construction
      else
        match deconstruct c (rc + 1) with
        | Except.error er => Except.error er
        | Except.ok b => Except.ok (acc ++ b)) acc) = Except.error Err.construction := by
  intro pre
  induction pre with
  | nil =>
    intro c post acc _ hc
    have hstep : (if c.tagClass ≠ e.tagClass then Except.error Err.construction
        else if c.tagNumber ≠ e.tagNumber then Except.error Err.construction
        else
          match deconstruct c (rc + 1) with
          | Except.error er => Except.error er
          | Except.ok b => Except.ok (acc ++ b))
        = (Except.error Err.construction : Except Err (List Nat)) := by
      rcases hc with hc | hc
      · rw [if_pos hc]
      · by_cases htc : c.tagClass ≠ e.tagClass
        · rw [if_pos htc]
        · rw [if_neg htc, if_pos hc]
    rw [List.nil_append, List.foldlM_cons, hstep]
    rfl
  | cons p pre ih =>
    intro c post acc hpre hc
    obtain ⟨h1, h2, b, h3⟩ := hpre p (by simp)
    have hstep : (if p.tagClass ≠ e.tagClass then Except.error Err.construction
        else if p.tagNumber ≠ e.tagNumber then Except.error Err.construction
        else
          match deconstruct p (rc + 1) with
          | Except.error er => Except.error er
          | Except.ok b => Except.ok (acc ++ b)) = Except.ok (acc ++ b) := by
      rw [if_neg (not_not_intro h1), if_neg (not_not_intro h2), h3]
    rw [List.cons_append, List.foldlM_cons, hstep]
    show ((pre ++ c :: post).foldlM _ (acc ++ b)) = _
    exact ih c post (acc ++ b) (fun q hq => hpre q (by simp [hq])) hc

/-- C9: for a constructed string element whose value octets parse into the
child list `cs`, `deconstruct` (and hence the `octetString` getter) throws
`ConstructionError` whenever some child whose predecessors all deconstruct
cleanly carries a tag class or tag number different from the outer
element's, and, when every child matches the outer tag and deconstructs to
some octets, returns the concatenation of the recursively deconstructed
child contents (the spec's `24 11 ...` scenario is the witness). -/
theorem c9_deconstruct (e c : Element) (cs pre post : List Element) (bs : List (List Nat)) :
    e.construction = ASN1Construction.constructed →
    sequenceGet e = Except.ok cs →
    ((cs = pre ++ c :: post →
      (∀ p ∈ pre, p.tagClass = e.tagClass ∧ p.tagNumber = e.tagNumber ∧
        ∃ b, deconstruct p 1 = Except.ok b) →
      (c.tagClass ≠ e.tagClass ∨ c.tagNumber ≠ e.tagNumber) →
      octetStringGet e 0 = Except.error Err.construction) ∧
    (List.Forall₂ (fun cc b => cc.tagClass = e.tagClass ∧ cc.tagNumber = e.tagNumber ∧
        deconstruct cc 1 = Except.ok b) cs bs →
      octetStringGet e 0 = Except.ok bs.flatten)) := by
  intro hco hseq
  have hbase : octetStringGet e 0 = (cs.foldlM (fun acc c =>
      if c.tagClass ≠ e.tagClass then Except.error Err.construction
      else if c.tagNumber ≠ e.tagNumber then Except.error Err.construction
      else
        match deconstruct c (0 + 1) with
        | Except.error er => Except.error er
        | Except.ok b => Except.ok (acc ++ b)) []) := by
    show deconstruct e 0 = _
    rw [deconstruct_eq e 0 (by omega)]
    simp [hco, hseq, nestingRecursionLimit]
  constructor
  · intro hsplit hpre hc
    rw [hbase, hsplit]
    exact deconFold_err e 0 pre c post [] (by simpa using hpre) hc
  · intro hall
    rw [hbase, deconFold_ok e 0 cs bs (by simpa using hall) []]
    simp

/-- C9 witness: the spec's constructed OCTET STRING scenario. -/
theorem c9_deconstruct_witness :
    berFromBytes 0 ex24Bytes = Except.ok (ex24Element, 19) ∧
    sequenceGet ex24Element = Except.ok
      [⟨ASN1TagClass.universal, ASN1Construction.primitive, 4, [1, 2, 3, 4]⟩,
       ⟨ASN1TagClass.universal, ASN1Construction.constructed, 4, [4, 3, 5, 6, 7]⟩,
       ⟨ASN1TagClass.universal, ASN1Construction.primitive, 4, [8, 9]⟩] ∧
    octetStringGet ex24Element 0 = Except.ok [1, 2, 3, 4, 5, 6, 7, 8, 9] := by
  refine ⟨rfl, rfl, ?_⟩
  have h := (c9_deconstruct ex24Element
    ⟨ASN1TagClass.universal, ASN1Construction.primitive, 4, [1, 2, 3, 4]⟩
    [⟨ASN1TagClass.universal, ASN1Construction.primitive, 4, [1, 2, 3, 4]⟩,
     ⟨ASN1TagClass.universal, ASN1Construction.constructed, 4, [4, 3, 5, 6, 7]⟩,
     ⟨ASN1TagClass.universal, ASN1Construction.primitive, 4, [8, 9]⟩]
    [] []
    [[1, 2, 3, 4], [5, 6, 7], [8, 9]] rfl rfl).2
  exact h (by
    refine List.Forall₂.cons ⟨rfl, rfl, rfl⟩ ?_
    refine List.Forall₂.cons ⟨rfl, rfl, rfl⟩ ?_
    exact List.Forall₂.cons ⟨rfl, rfl, rfl⟩ List.Forall₂.nil)

lemma bitStringGet_eq (e : Element) (rc : Nat) (hrc : rc ≤ 6) :
    bitStringGet e rc =
      if e.construction = ASN1Construction.primitive then decodeBitStringPrim e.value
      else if rc + 1 > nestingRecursionLimit then Except.error Err.recursion
      else match sequenceGet e with
        | Except.error er => Except.error er
        | Except.ok cs =>
          if cs.dropLast.any (fun c =>
              decide (c.construction = ASN1Construction.primitive) &&
              decide (c.value.length > 0) && decide (c.value.getD 0 0 ≠ 0)) then
            Except.error Err.generic
          else
            cs.foldlM (fun acc c =>
              if c.tagClass ≠ e.tagClass then Except.error Err.construction
              else if c.tagNumber ≠ e.tagNumber then Except.error Err.construction
              else
                match bitStringGet c (rc + 1) with
                | Except.error er => Except.error er
                | Except.ok b => Except.ok (acc ++ b)) [] := by
  show bitStringAux (nestingRecursionLimit + 2 - rc) e rc = _
  rw [show nestingRecursionLimit + 2 - rc = (nestingRecursionLimit + 1 - rc) + 1 from by
    simp only [nestingRecursionLimit]; omega]
  rw [bitStringAux]
  simp only [bitStringGet, show nestingRecursionLimit + 2 - (rc + 1)
    = nestingRecursionLimit + 1 - rc from by simp only [nestingRecursionLimit]; omega]

lemma bsFold_ok (e : Element) (rc : Nat) :
    ∀ (cs : List Element) (bs : List (List Bool)),
    List.Forall₂ (fun c b => c.tagClass = e.tagClass ∧ c.tagNumber = e.tagNumber ∧
      bitStringGet c (rc + 1) = Except.ok b) cs bs →
    ∀ (acc : List Bool),
    (cs.foldlM (fun acc c =>
      if c.tagClass ≠ e.tagClass then Except.error Err.construction
      else if c.tagNumber ≠ e.tagNumber then Except.error Err.construction
      else
        match bitStringGet c (rc + 1) with
        | Except.error er => Except.error er
        | Except.ok b => Except.ok (acc ++ b)) acc) = Except.ok (acc ++ bs.flatten) := by
  intro cs bs h
  induction h with
  | nil =>
    intro acc
    simp [List.foldlM]
    rfl
  | cons hd tl ih =>
    rename_i c b cs bs
    intro acc
    obtain ⟨h1, h2, h3⟩ := hd
    have hstep : (if c.tagClass ≠ e.tagClass then Except.error Err.construction
        else if c.tagNumber ≠ e.tagNumber then Except.error Err.construction
        else
          match bitStringGet c (rc + 1) with
          | Except.error er => Except.error er
          | Except.ok b => Except.ok (acc ++ b)) = Except.ok (acc ++ b) := by
      rw [if_neg (not_not_intro h1), if_neg (not_not_intro h2), h3]
    rw [List.foldlM_cons, hstep]
    show (cs.foldlM _ (acc ++ b)) = _
    rw [ih (acc ++ b)]
    simp

lemma forall2_map_self {α β : Type} (R : α → β → Prop) (g : α → β) :
    ∀ (l : List α), (∀ a ∈ l, R a (g a)) → List.Forall₂ R l (l.map g) := by
  intro l
  induction l with
  | nil => intro _; exact List.Forall₂.nil
  | cons a l ih =>
    intro h
    exact List.Forall₂.cons (h a (by simp)) (ih (fun x hx => h x (by simp [hx])))

/-- C5 (amended): for a constructed BIT STRING element whose value octets
parse into primitive, well-formed sub-elements carrying the outer tag, the
`bitString` getter throws `ASN1Error` exactly when some sub-element other
than the last has a non-zero first content octet (a non-zero unused-bit
count), and otherwise returns the concatenation of the sub-elements' bit
strings.  Constructed sub-elements are exempt from the alignment check
(see the counterexample), which is why the claim is restricted to
primitive sub-elements. -/
theorem c5_bitstring_alignment (e : Element) (cs : List Element) :
    e.construction = ASN1Construction.constructed →
    sequenceGet e = Except.ok cs →
    (∀ c ∈ cs, c.construction = ASN1Construction.primitive ∧
      c.tagClass = e.tagClass ∧ c.tagNumber = e.tagNumber ∧
      c.value ≠ [] ∧ c.value.getD 0 0 ≤ 7 ∧ (c.value.length = 1 → c.value.getD 0 0 = 0)) →
    (((∃ c ∈ cs.dropLast, c.value.getD 0 0 ≠ 0) →
      bitStringGet e 0 = Except.error Err.generic) ∧
    ((∀ c ∈ cs.dropLast, c.value.getD 0 0 = 0) →
      bitStringGet e 0 = Except.ok ((cs.map (fun c => primBitsVal c.value)).flatten))) := by
  intro hco hseq hwf
  have hbase : bitStringGet e 0 =
      (if cs.dropLast.any (fun c =>
          decide (c.construction = ASN1Construction.primitive) &&
          decide (c.value.length > 0) && decide (c.value.getD 0 0 ≠ 0)) then
        Except.error Err.generic
      else
        cs.foldlM (fun acc c =>
          if c.tagClass ≠ e.tagClass then Except.error Err.construction
          else if c.tagNumber ≠ e.tagNumber then Except.error Err.construction
          else
            match bitStringGet c (0 + 1) with
            | Except.error er => Except.error er
            | Except.ok b => Except.ok (acc ++ b)) []) := by
    rw [bitStringGet_eq e 0 (by omega)]
    simp [hco, hseq, nestingRecursionLimit]
  constructor
  · rintro ⟨c, hmem, hne⟩
    have hc := hwf c (List.dropLast_subset _ hmem)
    rw [hbase, if_pos ?_]
    rw [List.any_eq_true]
    refine ⟨c, hmem, ?_⟩
    simp only [Bool.and_eq_true, decide_eq_true_eq]
    refine ⟨⟨hc.1, ?_⟩, hne⟩
    have := hc.2.2.2.1
    cases hv : c.value with
    | nil => exact absurd hv this
    | cons x xs => simp [hv]
  · intro hall
    have hany : cs.dropLast.any (fun c =>
        decide (c.construction = ASN1Construction.primitive) &&
        decide (c.value.length > 0) && decide (c.value.getD 0 0 ≠ 0)) = false := by
      rw [List.any_eq_false]
      intro c hmem
      simp only [Bool.and_eq_true, decide_eq_true_eq, not_and]
      intro _
      exact not_not_intro (hall c hmem)
    rw [hbase, hany, if_neg (show ¬ false = true by simp)]
    rw [bsFold_ok e 0 cs (cs.map (fun c => primBitsVal c.value)) ?_ []]
    · simp
    · refine forall2_map_self _ _ cs (fun c hc => ?_)
      obtain ⟨hprim, htc, htn, hv1, hv2, hv3⟩ := hwf c hc
      refine ⟨htc, htn, ?_⟩
      rw [bitStringGet_eq c 1 (by omega), if_pos hprim]
      rw [decodeBitStringPrim, if_neg (by simpa using hv1), if_neg ?_, if_neg (by omega)]
      intro ⟨hl, hd⟩
      exact hd (hv3 hl)

/-- C5 witness: a two-fragment constructed BIT STRING (.primitive children)
decodes to the concatenated bits when the first child is byte-aligned, and
throws when a non-final primitive child has a non-zero first octet. -/
theorem c5_bitstring_alignment_witness :
    bitStringGet ⟨ASN1TagClass.universal, ASN1Construction.constructed, 3,
        [3, 2, 0, 15, 3, 2, 5, 240]⟩ 0 =
      Except.ok [false, false, false, false, true, true, true, true, true, true, true] ∧
    bitStringGet ⟨ASN1TagClass.universal, ASN1Construction.constructed, 3,
        [3, 2, 5, 240, 3, 2, 0, 15]⟩ 0 = Except.error Err.generic := by
  constructor
  · have h := (c5_bitstring_alignment
      ⟨ASN1TagClass.universal, ASN1Construction.constructed, 3, [3, 2, 0, 15, 3, 2, 5, 240]⟩
      [⟨ASN1TagClass.universal, ASN1Construction.primitive, 3, [0, 15]⟩,
       ⟨ASN1TagClass.universal, ASN1Construction.primitive, 3, [5, 240]⟩]
      rfl rfl (by decide)).2 (by decide)
    exact h
  · have h := (c5_bitstring_alignment
      ⟨ASN1TagClass.universal, ASN1Construction.constructed, 3, [3, 2, 5, 240, 3, 2, 0, 15]⟩
      [⟨ASN1TagClass.universal, ASN1Construction.primitive, 3, [5, 240]⟩,
       ⟨ASN1TagClass.universal, ASN1Construction.primitive, 3, [0, 15]⟩]
      rfl rfl (by decide)).1 (by decide)
    exact h

lemma splitOctetsAux_flatten : ∀ (f : Nat) (v : List Nat), v.length ≤ f →
    (splitOctetsAux f v).flatten = v := by
  intro f
  induction f with
  | zero =>
    intro v hv
    have : v = [] := by
      cases v with
      | nil => rfl
      | cons a l => simp at hv
    simp [this, splitOctetsAux]
  | succ f ih =>
    intro v hv
    by_cases hnil : v = []
    · simp [hnil, splitOctetsAux]
    · rw [splitOctetsAux, if_neg hnil]
      have hlen : (v.drop 1000).length ≤ f := by
        have : 0 < v.length := List.length_pos.mpr hnil
        simp only [List.length_drop]
        omega
      simp [ih (v.drop 1000) hlen]

lemma splitOctetsAux_nil (f : Nat) : splitOctetsAux f [] = [] := by
  cases f <;> simp [splitOctetsAux]

lemma splitOctetsAux_chunks : ∀ (f : Nat) (v : List Nat), v.length ≤ f →
    ∀ c ∈ (splitOctetsAux f v).dropLast, c.length = 1000 := by
  intro f
  induction f with
  | zero =>
    intro v hv c hc
    have : v = [] := by
      cases v with
      | nil => rfl
      | cons a l => simp at hv
    simp [this, splitOctetsAux] at hc
  | succ f ih =>
    intro v hv c hc
    by_cases hnil : v = []
    · simp [hnil, splitOctetsAux] at hc
    · rw [splitOctetsAux, if_neg hnil] at hc
      cases htl : splitOctetsAux f (v.drop 1000) with
      | nil => simp [htl] at hc
      | cons x xs =>
        rw [htl] at hc
        rw [List.dropLast_cons_of_ne_nil (by simp)] at hc
        have hdrop : v.drop 1000 ≠ [] := by
          intro hd
          rw [hd, splitOctetsAux_nil] at htl
          exact List.noConfusion htl
        have hlong : 1000 < v.length := by
          by_contra hle
          exact hdrop (List.drop_eq_nil_of_le (by omega))
        rcases List.mem_cons.mp hc with hc1 | hc2
        · rw [hc1]
          simp only [List.length_take]
          omega
        · have hlen : (v.drop 1000).length ≤ f := by
            simp only [List.length_drop]
            omega
          have := ih (v.drop 1000) hlen c
          rw [htl] at this
          exact this hc2

/-- The first/second CER fragment of the 2500-octet OCTET STRING. -/
def frag1000 : Element :=
  ⟨ASN1TagClass.universal, ASN1Construction.primitive, 4, List.replicate 1000 0⟩

/-- The last CER fragment of the 2500-octet OCTET STRING. -/
def frag500 : Element :=
  ⟨ASN1TagClass.universal, ASN1Construction.primitive, 4, List.replicate 500 0⟩

/-- Encoding of `frag1000`: `04 82 03 E8` followed by 1000 zero octets. -/
def fragBytes1000 : List Nat := 4 :: 130 :: 3 :: 232 :: List.replicate 1000 0

/-- Encoding of `frag500`: `04 82 01 F4` followed by 500 zero octets. -/
def fragBytes500 : List Nat := 4 :: 130 :: 1 :: 244 :: List.replicate 500 0

/-- The element produced by the CER `octetString` setter on 2500 zero octets. -/
def cer2500 : Element :=
  cerOctetStringSet ⟨ASN1TagClass.universal, ASN1Construction.primitive, 4, []⟩
    (List.replicate 2500 0)

lemma split2500 : splitOctetsCanonically (List.replicate 2500 (0 : Nat)) =
    [List.replicate 1000 0, List.replicate 1000 0, List.replicate 500 0] := by
  show splitOctetsAux (List.replicate 2500 (0 : Nat)).length _ = _
  rw [List.length_replicate]
  rw [show (2500 : Nat) = 2499 + 1 from rfl, splitOctetsAux,
    if_neg (by simp), List.take_replicate, List.drop_replicate]
  norm_num
  rw [show (2499 : Nat) = 2498 + 1 from rfl, splitOctetsAux,
    if_neg (by simp), List.take_replicate, List.drop_replicate]
  norm_num
  rw [show (2498 : Nat) = 2497 + 1 from rfl, splitOctetsAux,
    if_neg (by simp), List.take_replicate, List.drop_replicate]
  norm_num
  rw [show (2497 : Nat) = 2496 + 1 from rfl, splitOctetsAux, if_pos (by norm_num)]

lemma cerToBytes_frag1000 : cerToBytes frag1000 = fragBytes1000 := by
  show tagBytes frag1000 ++ encodeLengthDefinite (List.replicate 1000 (0 : Nat)).length
    ++ List.replicate 1000 0 = _
  rw [List.length_replicate, show encodeLengthDefinite 1000 = [130, 3, 232] from rfl,
    show tagBytes frag1000 = [4] from rfl]
  rfl

lemma cerToBytes_frag500 : cerToBytes frag500 = fragBytes500 := by
  show tagBytes frag500 ++ encodeLengthDefinite (List.replicate 500 (0 : Nat)).length
    ++ List.replicate 500 0 = _
  rw [List.length_replicate, show encodeLengthDefinite 500 = [130, 1, 244] from rfl,
    show tagBytes frag500 = [4] from rfl]
  rfl

lemma cer2500_eq : cer2500 = ⟨ASN1TagClass.universal, ASN1Construction.constructed, 4,
    fragBytes1000 ++ (fragBytes1000 ++ fragBytes500)⟩ := by
  unfold cer2500 cerOctetStringSet cerUnfragmentedValueSet
  rw [if_neg (by rw [List.length_replicate]; omega)]
  simp only [split2500, List.map_cons, List.map_nil, encodeSequence,
    cerToBytes_frag1000, cerToBytes_frag500]
  simp only [show (⟨ASN1TagClass.universal, ASN1Construction.primitive, 4,
      List.replicate 1000 0⟩ : Element) = frag1000 from rfl,
    show (⟨ASN1TagClass.universal, ASN1Construction.primitive, 4,
      List.replicate 500 0⟩ : Element) = frag500 from rfl,
    cerToBytes_frag1000, cerToBytes_frag500]
  simp [List.flatten]

lemma parse_frag1000 (f : Nat) (rest : List Nat) :
    fromBytesAux (f + 1) 0 (fragBytes1000 ++ rest) = Except.ok (frag1000, 1004) := by
  show fromBytesAux (f + 1) 0 (4 :: 130 :: 3 :: 232 :: (List.replicate 1000 0 ++ rest)) = _
  rw [fromBytesAux]
  norm_num [List.getD_cons_zero, List.getD_cons_succ, nestingRecursionLimit,
    List.length_replicate, beValue, List.range', tagClassOfOctet]
  rw [if_neg (by omega), if_neg (by omega), if_neg (by omega)]
  rfl

lemma parse_frag500 (f : Nat) (rest : List Nat) :
    fromBytesAux (f + 1) 0 (fragBytes500 ++ rest) = Except.ok (frag500, 504) := by
  show fromBytesAux (f + 1) 0 (4 :: 130 :: 1 :: 244 :: (List.replicate 500 0 ++ rest)) = _
  rw [fromBytesAux]
  norm_num [List.getD_cons_zero, List.getD_cons_succ, nestingRecursionLimit,
    List.length_replicate, beValue, List.range', tagClassOfOctet]
  rw [if_neg (by omega), if_neg (by omega), if_neg (by omega)]
  rfl

lemma fragBytes1000_length : fragBytes1000.length = 1004 := by
  show (4 :: 130 :: 3 :: 232 :: List.replicate 1000 0).length = 1004
  simp only [List.length_cons, List.length_replicate]

lemma fragBytes500_length : fragBytes500.length = 504 := by
  show (4 :: 130 :: 1 :: 244 :: List.replicate 500 0).length = 504
  simp only [List.length_cons, List.length_replicate]

lemma parse_frag500_alone (f : Nat) :
    fromBytesAux (f + 1) 0 fragBytes500 = Except.ok (frag500, 504) := by
  have h := parse_frag500 f []
  rwa [List.append_nil] at h

lemma c7_children : sequenceGet cer2500 = Except.ok [frag1000, frag1000, frag500] := by
  rw [cer2500_eq]
  unfold sequenceGet
  rw [if_neg (by simp)]
  show seqAux ((fragBytes1000 ++ (fragBytes1000 ++ fragBytes500)).length + 1)
    (fragBytes1000 ++ (fragBytes1000 ++ fragBytes500)) 0 = _
  have hV : (fragBytes1000 ++ (fragBytes1000 ++ fragBytes500)).length = 2512 := by
    simp only [List.length_append, fragBytes1000_length, fragBytes500_length]
  have hd1 : (fragBytes1000 ++ (fragBytes1000 ++ fragBytes500)).drop 1004 =
      fragBytes1000 ++ fragBytes500 :=
    List.drop_left' fragBytes1000_length
  have hd2 : (fragBytes1000 ++ (fragBytes1000 ++ fragBytes500)).drop 2008 = fragBytes500 := by
    rw [show (2008 : Nat) = 1004 + 1004 from rfl, ← List.drop_drop, hd1,
      List.drop_left' fragBytes1000_length]
  have hlen2 : (fragBytes1000 ++ fragBytes500).length = 1508 := by
    simp only [List.length_append, fragBytes1000_length, fragBytes500_length]
  have s3 : seqAux 2510 (fragBytes1000 ++ (fragBytes1000 ++ fragBytes500)) 2512 =
      Except.ok [] := by
    rw [show (2510 : Nat) = 2509 + 1 from rfl, seqAux, if_neg (by rw [hV]; omega)]
  have s2 : seqAux 2511 (fragBytes1000 ++ (fragBytes1000 ++ fragBytes500)) 2008 =
      Except.ok [frag500] := by
    rw [show (2511 : Nat) = 2510 + 1 from rfl, seqAux, if_pos (by rw [hV]; omega), hd2,
      berFromBytes, fragBytes500_length, show 2 * 504 + 2 = 1009 + 1 from by norm_num,
      parse_frag500_alone 1009]
    simp [s3]
  have s1 : seqAux 2512 (fragBytes1000 ++ (fragBytes1000 ++ fragBytes500)) 1004 =
      Except.ok [frag1000, frag500] := by
    rw [show (2512 : Nat) = 2511 + 1 from rfl, seqAux, if_pos (by rw [hV]; omega), hd1,
      berFromBytes, hlen2, show 2 * 1508 + 2 = 3017 + 1 from by norm_num,
      parse_frag1000 3017 fragBytes500]
    simp [s2]
  rw [hV, seqAux, if_pos (by rw [hV]; omega), List.drop_zero, berFromBytes, hV,
    show 2 * 2512 + 2 = 5025 + 1 from by norm_num,
    parse_frag1000 5025 (fragBytes1000 ++ fragBytes500)]
  simp [s1]

/-- C7: the CER `octetString` setter stores values of at most 1000 octets
primitively and literally; longer values switch the element to constructed
form, the value being the concatenated encodings of primitive fragments
that carry the element's own tag and partition the value into 1000-octet
chunks with the remainder last; in particular a 2500-octet OCTET STRING
yields exactly three children of value lengths 1000, 1000 and 500. -/
theorem c7_cer_fragmentation (e : Element) (v : List Nat) :
    (v.length ≤ 1000 → cerOctetStringSet e v =
      { e with construction := ASN1Construction.primitive, value := v }) ∧
    (1000 < v.length →
      (cerOctetStringSet e v).construction = ASN1Construction.constructed ∧
      (splitOctetsCanonically v).flatten = v ∧
      (∀ c ∈ (splitOctetsCanonically v).dropLast, c.length = 1000) ∧
      (cerOctetStringSet e v).value = ((splitOctetsCanonically v).map (fun f =>
        cerToBytes ⟨e.tagClass, ASN1Construction.primitive, e.tagNumber, f⟩)).flatten) ∧
    (cer2500.construction = ASN1Construction.constructed ∧
     sequenceGet cer2500 = Except.ok [frag1000, frag1000, frag500] ∧
     frag1000.value.length = 1000 ∧ frag500.value.length = 500) := by
  refine ⟨?_, ?_, ?_, c7_children, ?_, ?_⟩
  · intro h
    unfold cerOctetStringSet cerUnfragmentedValueSet
    rw [if_pos h]
  · intro h
    unfold cerOctetStringSet cerUnfragmentedValueSet
    rw [if_neg (by omega)]
    refine ⟨rfl, splitOctetsAux_flatten v.length v (Nat.le_refl _),
      splitOctetsAux_chunks v.length v (Nat.le_refl _), ?_⟩
    simp [encodeSequence, List.map_map]
    rfl
  · rw [cer2500_eq]
  · show (List.replicate 1000 (0 : Nat)).length = 1000
    exact List.length_replicate 1000 0
  · show (List.replicate 500 (0 : Nat)).length = 500
    exact List.length_replicate 500 0

/-- C7 witness. -/
theorem c7_cer_fragmentation_witness :
    cerOctetStringSet ⟨ASN1TagClass.universal, ASN1Construction.constructed, 4, [9]⟩ [7, 8] =
      ⟨ASN1TagClass.universal, ASN1Construction.primitive, 4, [7, 8]⟩ ∧
    (cerOctetStringSet ⟨ASN1TagClass.universal, ASN1Construction.primitive, 4, []⟩
      (List.replicate 1001 0)).construction = ASN1Construction.constructed := by
  constructor
  · exact (c7_cer_fragmentation
      ⟨ASN1TagClass.universal, ASN1Construction.constructed, 4, [9]⟩ [7, 8]).1 (by decide)
  · exact ((c7_cer_fragmentation ⟨ASN1TagClass.universal, ASN1Construction.primitive, 4, []⟩
      (List.replicate 1001 0)).2.1 (by rw [List.length_replicate]; omega)).1

end Asn1
